import Mathlib

/-!
Shallow embedding of `src/server.js` (webhookdeploy), current variant: the
Express webhook relay that resolves Docker Hub image pushes to Kubernetes
deployments, patches the deployment image, tracks recently updated services,
and monitors rollout status on a 30-second cron schedule.

Field `ns` stands for the source's `namespace` field (a Lean keyword).
-/

/-- A value of the `SERVICE_MAPPINGS` table: the `{ namespace, deployment }`
object. -/
structure ServiceConfig where
  ns : String
  deployment : String
deriving DecidableEq, Repr

/-- The `SERVICE_MAPPINGS` object of `src/server.js`, as an association list in
JS property-declaration order (JS objects preserve string-key insertion order,
and `Object.keys` / `Object.entries` iterate in that order). -/
def SERVICE_MAPPINGS : List (String × ServiceConfig) :=
  [ ("auth-service", ⟨"backend", "auth-service"⟩),
    ("auth", ⟨"backend", "auth-service"⟩),
    ("masters-service", ⟨"backend", "masters-service"⟩),
    ("masters", ⟨"backend", "masters-service"⟩),
    ("orders-service", ⟨"backend", "orders-service"⟩),
    ("orders", ⟨"backend", "orders-service"⟩),
    ("users-service", ⟨"backend", "users-service"⟩),
    ("users", ⟨"backend", "users-service"⟩),
    ("calls-service", ⟨"backend", "calls-service"⟩),
    ("calls", ⟨"backend", "calls-service"⟩),
    ("reports-service", ⟨"backend", "reports-service"⟩),
    ("reports", ⟨"backend", "reports-service"⟩),
    ("avito-service", ⟨"backend", "avito-service"⟩),
    ("avito", ⟨"backend", "avito-service"⟩),
    ("cash-service", ⟨"backend", "cash-service"⟩),
    ("cash", ⟨"backend", "cash-service"⟩),
    ("files-service", ⟨"backend", "files-service"⟩),
    ("files", ⟨"backend", "files-service"⟩),
    ("backup-service", ⟨"backend", "backup-service"⟩),
    ("backup", ⟨"backend", "backup-service"⟩),
    ("callcentre-frontend", ⟨"frontend", "callcentre-frontend"⟩),
    ("callcentre", ⟨"frontend", "callcentre-frontend"⟩),
    ("front_callcentre", ⟨"frontend", "callcentre-frontend"⟩),
    ("dircrm-frontend", ⟨"frontend", "dircrm-frontend"⟩),
    ("front_dir", ⟨"frontend", "dircrm-frontend"⟩),
    ("mastercrm-frontend", ⟨"frontend", "mastercrm-frontend"⟩),
    ("mastercrm", ⟨"frontend", "mastercrm-frontend"⟩),
    ("notifications-service", ⟨"crm", "notifications-service"⟩),
    ("notifications", ⟨"crm", "notifications-service"⟩),
    ("realtime-service", ⟨"crm", "realtime-service"⟩),
    ("realtime", ⟨"crm", "realtime-service"⟩) ]

/-- Substring containment on character lists: `charsContain pat s` is true when
`pat` occurs contiguously anywhere in `s`.  This models the JS
`String.prototype.includes` call `s.includes(pat)` (true on the empty
pattern, as in JS). -/
def charsContain (pat : List Char) : List Char → Bool
  | [] => pat.isEmpty
  | c :: rest => pat.isPrefixOf (c :: rest) || charsContain pat rest

/-- `strIncludes s pat` models the JS expression `s.includes(pat)`. -/
def strIncludes (s pat : String) : Bool :=
  charsContain pat.data s.data

/-- The target-resolution step of the `POST /webhook/dockerhub` handler:
`Object.keys(SERVICE_MAPPINGS).find(key => imageName.includes(key))` followed by
the lookup `SERVICE_MAPPINGS[serviceKey]`.  Since JS object keys are unique,
finding the first matching key and then looking its value up is the same as
finding the first matching entry of the association list. -/
def resolve (imageName : String) : Option (String × ServiceConfig) :=
  SERVICE_MAPPINGS.find? (fun e => strIncludes imageName e.1)

/-- `List.find?` returns the first element satisfying the predicate: the list
splits into a prefix of non-matches, the returned match, and a suffix. -/
theorem find_first_split {α : Type} (p : α → Bool) :
    ∀ l : List α, (∃ a ∈ l, p a = true) →
      ∃ pre e post, l = pre ++ e :: post ∧ p e = true ∧
        (∀ x ∈ pre, p x = false) ∧ l.find? p = some e := by
  intro l
  induction l with
  | nil => rintro ⟨a, ha, _⟩; cases ha
  | cons h t ih =>
    intro hex
    by_cases hp : p h = true
    · refine ⟨[], h, t, rfl, hp, ?_, ?_⟩
      · intro x hx; cases hx
      · exact List.find?_cons_of_pos t hp
    · have hex' : ∃ a ∈ t, p a = true := by
        rcases hex with ⟨a, ha, hpa⟩
        rcases List.mem_cons.mp ha with rfl | hat
        · exact absurd hpa hp
        · exact ⟨a, hat, hpa⟩
      rcases ih hex' with ⟨pre, e, post, hsplit, hpe, hpre, hfind⟩
      refine ⟨h :: pre, e, post, by rw [hsplit]; rfl, hpe, ?_, ?_⟩
      · intro x hx
        rcases List.mem_cons.mp hx with rfl | hxp
        · exact Bool.eq_false_iff.mpr (fun hc => hp hc)
        · exact hpre x hxp
      · rw [List.find?_cons_of_neg _ (by simpa using hp)]
        exact hfind

/-- C3: if some registry alias is a substring of the identifier `s`, resolution
returns the entry of the first such alias in table-declaration order (the table
splits into a prefix of non-matching aliases followed by the returned entry);
if no alias is a substring, resolution returns `none`.  Totality (never
throwing) is inherent: `resolve` is a total function into `Option`. -/
theorem resolve_first_match_total (s : String) :
    ((∃ e ∈ SERVICE_MAPPINGS, strIncludes s e.1 = true) →
      ∃ pre e post, SERVICE_MAPPINGS = pre ++ e :: post ∧
        strIncludes s e.1 = true ∧ (∀ x ∈ pre, strIncludes s x.1 = false) ∧
        resolve s = some e) ∧
    ((∀ e ∈ SERVICE_MAPPINGS, strIncludes s e.1 = false) → resolve s = none) := by
  constructor
  · intro hex
    exact find_first_split (fun e => strIncludes s e.1) SERVICE_MAPPINGS hex
  · intro hall
    apply List.find?_eq_none.mpr
    intro x hx
    simp [hall x hx]

/-- Witness for C3 at the concrete identifier `"jessy/auth"` (matched by the
alias `"auth"`, the second entry) and at `"zzz"` (matched by no alias). -/
theorem resolve_first_match_total_witness :
    (∃ pre e post, SERVICE_MAPPINGS = pre ++ e :: post ∧
      strIncludes "jessy/auth" e.1 = true ∧
      (∀ x ∈ pre, strIncludes "jessy/auth" x.1 = false) ∧
      resolve "jessy/auth" = some e) ∧
    resolve "zzz" = none :=
  ⟨(resolve_first_match_total "jessy/auth").1
      ⟨("auth", ⟨"backend", "auth-service"⟩), by decide, by decide⟩,
    (resolve_first_match_total "zzz").2 (by decide)⟩

/-- The result object of `getDeploymentStatus` in `src/server.js` (the
`conditions` array is carried by the source but never inspected by the core
logic, so it is not modelled). -/
structure DeploymentStatus where
  name : String
  ns : String
  replicas : Nat
  readyReplicas : Nat
  availableReplicas : Nat
  updatedReplicas : Nat
  isReady : Bool
deriving DecidableEq, Repr

/-- The `status` object of the parsed `kubectl get deployment -o json` output:
each replica count may be absent (`none`). -/
structure RawK8sStatus where
  replicas : Option Nat
  readyReplicas : Option Nat
  availableReplicas : Option Nat
  updatedReplicas : Option Nat
deriving DecidableEq, Repr

/-- Models the JS default `status.field || 0` on a replica count: an absent
count is treated as 0. -/
def jsOrZero (o : Option Nat) : Nat :=
  o.getD 0

/-- The object built by `getDeploymentStatus` from the raw cluster response:
`isReady = (readyReplicas || 0) === (replicas || 0) && (replicas || 0) > 0`. -/
def mkDeploymentStatus (deployment ns : String) (raw : RawK8sStatus) :
    DeploymentStatus :=
  { name := deployment
    ns := ns
    replicas := jsOrZero raw.replicas
    readyReplicas := jsOrZero raw.readyReplicas
    availableReplicas := jsOrZero raw.availableReplicas
    updatedReplicas := jsOrZero raw.updatedReplicas
    isReady := (jsOrZero raw.readyReplicas == jsOrZero raw.replicas) &&
      decide (0 < jsOrZero raw.replicas) }

/-- C8: the computed health flag is true exactly when the ready replica count
equals the desired count and the desired count is positive, with absent counts
defaulted to 0; in particular a workload with desired count 0 is never
classified healthy.  The last two conjuncts record that the stored counts are
the defaulted raw counts. -/
theorem isReady_formula (deployment ns : String) (raw : RawK8sStatus) :
    ((mkDeploymentStatus deployment ns raw).isReady = true ↔
      raw.readyReplicas.getD 0 = raw.replicas.getD 0 ∧ 0 < raw.replicas.getD 0) ∧
    (raw.replicas.getD 0 = 0 →
      (mkDeploymentStatus deployment ns raw).isReady = false) ∧
    (mkDeploymentStatus deployment ns raw).readyReplicas = raw.readyReplicas.getD 0 ∧
    (mkDeploymentStatus deployment ns raw).replicas = raw.replicas.getD 0 := by
  refine ⟨?_, ?_, rfl, rfl⟩
  · simp [mkDeploymentStatus, jsOrZero, Bool.and_eq_true, decide_eq_true_iff]
  · intro h0
    simp [mkDeploymentStatus, jsOrZero, h0]

/-- Witness for C8: a deployment whose cluster response carries
`replicas: 0` (and no ready count at all) is not classified healthy. -/
theorem isReady_formula_witness :
    (mkDeploymentStatus "auth-service" "backend"
      ⟨some 0, none, none, none⟩).isReady = false :=
  (isReady_formula "auth-service" "backend" ⟨some 0, none, none, none⟩).2.1 rfl

/-- One success notification sent by the monitor cron task: the message
`"✅ <serviceName> успешно обновлен и работает! Статус: ready/replicas
Namespace: cfg.ns"`, recorded structurally. -/
structure SuccessNotif where
  serviceName : String
  cfg : ServiceConfig
  readyReplicas : Nat
  replicas : Nat
deriving DecidableEq, Repr

/-- Observable outcome of one run of the 30-second monitor cron task:
the sequence of `getDeploymentStatus` fetches issued, the success
notifications sent, and the `updatedServices` map (a set of service keys,
since every stored value is `true`) after the run. -/
structure CycleResult where
  fetches : List ServiceConfig
  notifications : List SuccessNotif
  pending : List String
deriving Repr

/-- The body of the monitor loop for one `[serviceName, config]` entry of
`Object.entries(SERVICE_MAPPINGS)`.  `stOf` gives the result of
`getDeploymentStatus(config.namespace, config.deployment)` during this cycle
(`none` models a rejected promise, caught and logged).  A healthy service
(`status.isReady && status.readyReplicas > 0`) that is in `updatedServices`
triggers one success notification and `updatedServices.delete(serviceName)`;
every other branch only logs. -/
def cycleStep (stOf : ServiceConfig → Option DeploymentStatus)
    (acc : CycleResult) (e : String × ServiceConfig) : CycleResult :=
  match stOf e.2 with
  | none => { acc with fetches := acc.fetches ++ [e.2] }
  | some st =>
    if st.isReady && decide (0 < st.readyReplicas) then
      if e.1 ∈ acc.pending then
        { fetches := acc.fetches ++ [e.2]
          notifications :=
            acc.notifications ++ [⟨e.1, e.2, st.readyReplicas, st.replicas⟩]
          pending := acc.pending.erase e.1 }
      else { acc with fetches := acc.fetches ++ [e.2] }
    else { acc with fetches := acc.fetches ++ [e.2] }

/-- The monitor loop over a list of registry entries, accumulating a result. -/
def runCycleAux (stOf : ServiceConfig → Option DeploymentStatus)
    (reg : List (String × ServiceConfig)) (acc : CycleResult) : CycleResult :=
  reg.foldl (cycleStep stOf) acc

/-- One full run of the monitor cron task over `SERVICE_MAPPINGS`, starting
from the pending-service set `pending`. -/
def runCycle (stOf : ServiceConfig → Option DeploymentStatus)
    (pending : List String) : CycleResult :=
  runCycleAux stOf SERVICE_MAPPINGS { fetches := [], notifications := [], pending := pending }

/-- Whether the monitor's healthy test passes for target `cfg` this cycle:
the fetch succeeded and `status.isReady && status.readyReplicas > 0`. -/
def healthyB (stOf : ServiceConfig → Option DeploymentStatus)
    (cfg : ServiceConfig) : Bool :=
  match stOf cfg with
  | none => false
  | some st => st.isReady && decide (0 < st.readyReplicas)

/-- Number of success notifications naming the service key `sn`. -/
def countName (sn : String) (l : List SuccessNotif) : Nat :=
  l.countP (fun n => n.serviceName == sn)

/-- Number of success notifications for the target `t` (regardless of which
alias they name). -/
def countTarget (t : ServiceConfig) (l : List SuccessNotif) : Nat :=
  l.countP (fun n => n.cfg == t)

/-- Case analysis of one monitor-loop step: either the entry does not pass the
healthy-and-pending test and the step leaves notifications and the pending set
unchanged, or it passes and the step appends exactly one success notification
(naming the entry's service key and target) and erases the entry's service key
from the pending set. -/
theorem cycleStep_cases (stOf : ServiceConfig → Option DeploymentStatus)
    (acc : CycleResult) (e : String × ServiceConfig) :
    (¬ (healthyB stOf e.2 = true ∧ e.1 ∈ acc.pending) ∧
      (cycleStep stOf acc e).notifications = acc.notifications ∧
      (cycleStep stOf acc e).pending = acc.pending) ∨
    (∃ st, stOf e.2 = some st ∧ healthyB stOf e.2 = true ∧ e.1 ∈ acc.pending ∧
      (cycleStep stOf acc e).notifications =
        acc.notifications ++ [⟨e.1, e.2, st.readyReplicas, st.replicas⟩] ∧
      (cycleStep stOf acc e).pending = acc.pending.erase e.1) := by
  cases hst : stOf e.2 with
  | none =>
    left
    refine ⟨?_, by simp [cycleStep, hst], by simp [cycleStep, hst]⟩
    rintro ⟨h1, -⟩
    simp [healthyB, hst] at h1
  | some st =>
    by_cases hready : (st.isReady && decide (0 < st.readyReplicas)) = true
    · by_cases hmem : e.1 ∈ acc.pending
      · right
        exact ⟨st, rfl, by simp [healthyB, hst, hready], hmem,
          by simp [cycleStep, hst, hready, hmem],
          by simp [cycleStep, hst, hready, hmem]⟩
      · left
        refine ⟨?_, by simp [cycleStep, hst, hready, hmem],
          by simp [cycleStep, hst, hready, hmem]⟩
        rintro ⟨-, h2⟩
        exact hmem h2
    · left
      refine ⟨?_, by simp [cycleStep, hst, hready],
        by simp [cycleStep, hst, hready]⟩
      rintro ⟨h1, -⟩
      rw [healthyB, hst] at h1
      exact hready h1

/-- Counting over an appended singleton notification list. -/
theorem countName_append_single (sn : String) (l : List SuccessNotif)
    (x : SuccessNotif) :
    countName sn (l ++ [x]) =
      countName sn l + (if x.serviceName = sn then 1 else 0) := by
  simp [countName, List.countP_append, List.countP_cons]

/-- Counting per-target over an appended singleton notification list. -/
theorem countTarget_append_single (t : ServiceConfig) (l : List SuccessNotif)
    (x : SuccessNotif) :
    countTarget t (l ++ [x]) =
      countTarget t l + (if x.cfg = t then 1 else 0) := by
  simp [countTarget, List.countP_append, List.countP_cons]

/-- The monitor loop over an appended list is the loop over the suffix started
from the loop over the prefix. -/
theorem runCycleAux_append (stOf : ServiceConfig → Option DeploymentStatus)
    (l₁ l₂ : List (String × ServiceConfig)) (acc : CycleResult) :
    runCycleAux stOf (l₁ ++ l₂) acc =
      runCycleAux stOf l₂ (runCycleAux stOf l₁ acc) := by
  simp [runCycleAux, List.foldl_append]

/-- The monitor loop only ever shrinks the pending set. -/
theorem runCycleAux_pending_subset (stOf : ServiceConfig → Option DeploymentStatus) :
    ∀ (reg : List (String × ServiceConfig)) (acc : CycleResult),
      (runCycleAux stOf reg acc).pending ⊆ acc.pending := by
  intro reg
  induction reg with
  | nil => intro acc; exact fun a ha => ha
  | cons e t ih =>
    intro acc a ha
    have h1 : a ∈ (cycleStep stOf acc e).pending := ih (cycleStep stOf acc e) ha
    rcases cycleStep_cases stOf acc e with ⟨-, -, hpend⟩ | ⟨st, -, -, -, -, hpend⟩
    · rw [hpend] at h1; exact h1
    · rw [hpend] at h1; exact List.mem_of_mem_erase h1

/-- The monitor loop preserves distinctness of the pending keys. -/
theorem runCycleAux_pending_nodup (stOf : ServiceConfig → Option DeploymentStatus) :
    ∀ (reg : List (String × ServiceConfig)) (acc : CycleResult),
      acc.pending.Nodup → (runCycleAux stOf reg acc).pending.Nodup := by
  intro reg
  induction reg with
  | nil => intro acc h; exact h
  | cons e t ih =>
    intro acc h
    refine ih (cycleStep stOf acc e) ?_
    rcases cycleStep_cases stOf acc e with ⟨-, -, hpend⟩ | ⟨st, -, -, -, -, hpend⟩
    · rw [hpend]; exact h
    · rw [hpend]; exact h.erase e.1

/-- If none of the registry entries carries the key `sn`, the monitor loop does
not change whether `sn` is pending. -/
theorem runCycleAux_mem_pending_of_no_key
    (stOf : ServiceConfig → Option DeploymentStatus) (sn : String) :
    ∀ (reg : List (String × ServiceConfig)) (acc : CycleResult),
      sn ∉ reg.map Prod.fst →
      (sn ∈ (runCycleAux stOf reg acc).pending ↔ sn ∈ acc.pending) := by
  intro reg
  induction reg with
  | nil => intro acc _; exact Iff.rfl
  | cons e t ih =>
    intro acc hkey
    have hne : sn ≠ e.1 := by
      intro hc; exact hkey (by simp [hc])
    have htail : sn ∉ t.map Prod.fst := by
      intro hc; exact hkey (by simp [hc])
    refine Iff.trans (ih (cycleStep stOf acc e) htail) ?_
    rcases cycleStep_cases stOf acc e with ⟨-, -, hpend⟩ | ⟨st, -, -, -, -, hpend⟩
    · rw [hpend]
    · rw [hpend]; exact List.mem_erase_of_ne hne

/-- If none of the registry entries carries the key `sn`, the monitor loop adds
no success notification naming `sn`. -/
theorem runCycleAux_countName_of_no_key
    (stOf : ServiceConfig → Option DeploymentStatus) (sn : String) :
    ∀ (reg : List (String × ServiceConfig)) (acc : CycleResult),
      sn ∉ reg.map Prod.fst →
      countName sn (runCycleAux stOf reg acc).notifications =
        countName sn acc.notifications := by
  intro reg
  induction reg with
  | nil => intro acc _; rfl
  | cons e t ih =>
    intro acc hkey
    have hne : e.1 ≠ sn := by
      intro hc; exact hkey (by simp [hc])
    have htail : sn ∉ t.map Prod.fst := by
      intro hc; exact hkey (by simp [hc])
    rw [show runCycleAux stOf (e :: t) acc =
        runCycleAux stOf t (cycleStep stOf acc e) from rfl,
      ih (cycleStep stOf acc e) htail]
    rcases cycleStep_cases stOf acc e with ⟨-, hnot, -⟩ | ⟨st, -, -, -, hnot, -⟩
    · rw [hnot]
    · rw [hnot, countName_append_single]
      simp [hne]

/-- If `sn` is not pending when the loop starts, the loop adds no success
notification naming `sn` (and `sn` never becomes pending: the loop only
removes keys). -/
theorem runCycleAux_countName_of_not_pending
    (stOf : ServiceConfig → Option DeploymentStatus) (sn : String) :
    ∀ (reg : List (String × ServiceConfig)) (acc : CycleResult),
      sn ∉ acc.pending →
      countName sn (runCycleAux stOf reg acc).notifications =
        countName sn acc.notifications := by
  intro reg
  induction reg with
  | nil => intro acc _; rfl
  | cons e t ih =>
    intro acc hnp
    have hsub : sn ∉ (cycleStep stOf acc e).pending := by
      intro hc
      rcases cycleStep_cases stOf acc e with ⟨-, -, hpend⟩ | ⟨st, -, -, -, -, hpend⟩
      · rw [hpend] at hc; exact hnp hc
      · rw [hpend] at hc; exact hnp (List.mem_of_mem_erase hc)
    rw [show runCycleAux stOf (e :: t) acc =
        runCycleAux stOf t (cycleStep stOf acc e) from rfl,
      ih (cycleStep stOf acc e) hsub]
    rcases cycleStep_cases stOf acc e with ⟨-, hnot, -⟩ | ⟨st, -, -, hmem, hnot, -⟩
    · rw [hnot]
    · rw [hnot, countName_append_single]
      have hne : e.1 ≠ sn := by
        intro hc; rw [hc] at hmem; exact hnp hmem
      simp [hne]

/-- If the healthy test fails for the target `t` this cycle, the loop adds no
success notification for `t` (under any alias). -/
theorem runCycleAux_countTarget_unhealthy
    (stOf : ServiceConfig → Option DeploymentStatus) (t : ServiceConfig)
    (hun : healthyB stOf t = false) :
    ∀ (reg : List (String × ServiceConfig)) (acc : CycleResult),
      countTarget t (runCycleAux stOf reg acc).notifications =
        countTarget t acc.notifications := by
  intro reg
  induction reg with
  | nil => intro acc; rfl
  | cons e l ih =>
    intro acc
    rw [show runCycleAux stOf (e :: l) acc =
        runCycleAux stOf l (cycleStep stOf acc e) from rfl,
      ih (cycleStep stOf acc e)]
    rcases cycleStep_cases stOf acc e with ⟨-, hnot, -⟩ | ⟨st, -, hh, -, hnot, -⟩
    · rw [hnot]
    · rw [hnot, countTarget_append_single]
      have hne : e.2 ≠ t := by
        intro hc; rw [hc] at hh; rw [hh] at hun; cases hun
      simp [hne]

/-- If every registry entry carrying the key `sn` fails the healthy test this
cycle, the loop does not change whether `sn` is pending. -/
theorem runCycleAux_mem_pending_unhealthy_key
    (stOf : ServiceConfig → Option DeploymentStatus) (sn : String) :
    ∀ (reg : List (String × ServiceConfig)) (acc : CycleResult),
      (∀ cfg, (sn, cfg) ∈ reg → healthyB stOf cfg = false) →
      (sn ∈ (runCycleAux stOf reg acc).pending ↔ sn ∈ acc.pending) := by
  intro reg
  induction reg with
  | nil => intro acc _; exact Iff.rfl
  | cons e t ih =>
    intro acc hall
    have htail : ∀ cfg, (sn, cfg) ∈ t → healthyB stOf cfg = false := by
      intro cfg hc; exact hall cfg (List.mem_cons_of_mem e hc)
    refine Iff.trans (ih (cycleStep stOf acc e) htail) ?_
    rcases cycleStep_cases stOf acc e with ⟨-, -, hpend⟩ | ⟨st, -, hh, -, -, hpend⟩
    · rw [hpend]
    · rw [hpend]
      have hne : sn ≠ e.1 := by
        intro hc
        have : healthyB stOf e.2 = false := by
          refine hall e.2 ?_
          rw [hc]
          exact List.mem_cons_self e t
        rw [this] at hh; cases hh
      exact List.mem_erase_of_ne hne

/-- The alias keys of `SERVICE_MAPPINGS` are pairwise distinct (JS object
properties are unique). -/
theorem mappings_keys_nodup : (SERVICE_MAPPINGS.map Prod.fst).Nodup := by
  decide

/-- C1 (amended): the pending tracker is keyed by service alias, not by
target.  For every pending service key `sn` mapped by the registry to the
target `cfg`, a cycle whose fetch observes `cfg` healthy emits exactly one
success notification naming `sn` and removes `sn` from the pending set, and a
second cycle run from the resulting pending set emits no further notification
naming `sn`. -/
theorem pending_entry_single_success_notification
    (stOf : ServiceConfig → Option DeploymentStatus) (pending : List String)
    (hnd : pending.Nodup) (sn : String) (cfg : ServiceConfig)
    (hmem : (sn, cfg) ∈ SERVICE_MAPPINGS)
    (hh : healthyB stOf cfg = true) (hp : sn ∈ pending) :
    countName sn (runCycle stOf pending).notifications = 1 ∧
    sn ∉ (runCycle stOf pending).pending ∧
    countName sn
      (runCycle stOf (runCycle stOf pending).pending).notifications = 0 := by
  obtain ⟨pre, post, hsplit⟩ := List.append_of_mem hmem
  have hkeys : (SERVICE_MAPPINGS.map Prod.fst).Nodup := mappings_keys_nodup
  rw [hsplit, List.map_append, List.map_cons] at hkeys
  have hsn_notin : sn ∉ pre.map Prod.fst ++ post.map Prod.fst :=
    (List.nodup_cons.mp (List.nodup_middle.mp hkeys)).1
  have hpre : sn ∉ pre.map Prod.fst :=
    fun h => hsn_notin (List.mem_append_left _ h)
  have hpost : sn ∉ post.map Prod.fst :=
    fun h => hsn_notin (List.mem_append_right _ h)
  obtain ⟨st, hst, hready⟩ : ∃ st, stOf cfg = some st ∧
      (st.isReady && decide (0 < st.readyReplicas)) = true := by
    unfold healthyB at hh
    cases hstc : stOf cfg with
    | none => rw [hstc] at hh; cases hh
    | some st => rw [hstc] at hh; exact ⟨st, rfl, hh⟩
  have h1n : countName sn
      (runCycleAux stOf pre ⟨[], [], pending⟩).notifications = 0 := by
    rw [runCycleAux_countName_of_no_key stOf sn pre _ hpre]
    rfl
  have h1p : sn ∈ (runCycleAux stOf pre ⟨[], [], pending⟩).pending :=
    (runCycleAux_mem_pending_of_no_key stOf sn pre _ hpre).mpr hp
  have h1nd : (runCycleAux stOf pre ⟨[], [], pending⟩).pending.Nodup :=
    runCycleAux_pending_nodup stOf pre _ hnd
  have hstep_n : (cycleStep stOf (runCycleAux stOf pre ⟨[], [], pending⟩)
      (sn, cfg)).notifications =
      (runCycleAux stOf pre ⟨[], [], pending⟩).notifications ++
        [⟨sn, cfg, st.readyReplicas, st.replicas⟩] := by
    simp [cycleStep, hst, hready, h1p]
  have hstep_p : (cycleStep stOf (runCycleAux stOf pre ⟨[], [], pending⟩)
      (sn, cfg)).pending =
      (runCycleAux stOf pre ⟨[], [], pending⟩).pending.erase sn := by
    simp [cycleStep, hst, hready, h1p]
  have hrun : runCycle stOf pending =
      runCycleAux stOf post
        (cycleStep stOf (runCycleAux stOf pre ⟨[], [], pending⟩) (sn, cfg)) := by
    unfold runCycle
    rw [hsplit, runCycleAux_append]
    rfl
  have c1 : countName sn (runCycle stOf pending).notifications = 1 := by
    rw [hrun, runCycleAux_countName_of_no_key stOf sn post _ hpost, hstep_n,
      countName_append_single, h1n]
    simp
  have c2 : sn ∉ (runCycle stOf pending).pending := by
    rw [hrun]
    intro hc
    have hc' := (runCycleAux_mem_pending_of_no_key stOf sn post _ hpost).mp hc
    rw [hstep_p] at hc'
    exact h1nd.not_mem_erase hc'
  refine ⟨c1, c2, ?_⟩
  have h0 := runCycleAux_countName_of_not_pending stOf sn SERVICE_MAPPINGS
    ⟨[], [], (runCycle stOf pending).pending⟩ c2
  show countName sn (runCycleAux stOf SERVICE_MAPPINGS
    ⟨[], [], (runCycle stOf pending).pending⟩).notifications = 0
  rw [h0]
  rfl

/-- A cluster in which every deployment reports one ready replica out of one
desired: every target passes the monitor's healthy test. -/
def allHealthy : ServiceConfig → Option DeploymentStatus :=
  fun cfg => some ⟨cfg.deployment, cfg.ns, 1, 1, 1, 1, true⟩

/-- Witness for the amended C1 theorem at the pending key `"auth"` with every
target healthy. -/
theorem pending_entry_single_success_notification_witness :
    countName "auth" (runCycle allHealthy ["auth"]).notifications = 1 ∧
    "auth" ∉ (runCycle allHealthy ["auth"]).pending ∧
    countName "auth"
      (runCycle allHealthy (runCycle allHealthy ["auth"]).pending).notifications
      = 0 :=
  pending_entry_single_success_notification allHealthy ["auth"] (by decide)
    "auth" ⟨"backend", "auth-service"⟩ (by decide) (by decide) (by decide)

set_option maxRecDepth 10000 in
/-- Counterexample to C1 as stated: the aliases `"auth-service"` and `"auth"`
both map to the target `(backend, auth-service)`; with both service keys
pending, the first cycle that observes that target healthy emits two success
notifications for it, not exactly one. -/
theorem target_with_two_pending_aliases_notified_twice :
    ("auth-service", (⟨"backend", "auth-service"⟩ : ServiceConfig)) ∈
      SERVICE_MAPPINGS ∧
    ("auth", (⟨"backend", "auth-service"⟩ : ServiceConfig)) ∈ SERVICE_MAPPINGS ∧
    healthyB allHealthy ⟨"backend", "auth-service"⟩ = true ∧
    countTarget ⟨"backend", "auth-service"⟩
      (runCycle allHealthy ["auth-service", "auth"]).notifications = 2 := by
  decide

/-- Every branch of the monitor-loop body records exactly one status fetch for
the entry's target. -/
theorem cycleStep_fetches (stOf : ServiceConfig → Option DeploymentStatus)
    (acc : CycleResult) (e : String × ServiceConfig) :
    (cycleStep stOf acc e).fetches = acc.fetches ++ [e.2] := by
  unfold cycleStep
  cases stOf e.2 with
  | none => rfl
  | some st =>
    by_cases hready : (st.isReady && decide (0 < st.readyReplicas)) = true
    · by_cases hmem : e.1 ∈ acc.pending
      · simp [hready, hmem]
      · simp [hready, hmem]
    · simp [hready]

/-- The monitor loop fetches the status of each registry entry in order. -/
theorem runCycleAux_fetches (stOf : ServiceConfig → Option DeploymentStatus) :
    ∀ (reg : List (String × ServiceConfig)) (acc : CycleResult),
      (runCycleAux stOf reg acc).fetches = acc.fetches ++ reg.map Prod.snd := by
  intro reg
  induction reg with
  | nil => intro acc; simp [runCycleAux]
  | cons e t ih =>
    intro acc
    rw [show runCycleAux stOf (e :: t) acc =
        runCycleAux stOf t (cycleStep stOf acc e) from rfl,
      ih (cycleStep stOf acc e), cycleStep_fetches]
    simp

/-- C2 (amended): each monitor cycle issues one status fetch per registry
entry, in registry order — a workload reachable through several aliases is
fetched once per alias, not once per distinct `(namespace, deployment)` pair. -/
theorem cycle_fetches_once_per_alias
    (stOf : ServiceConfig → Option DeploymentStatus) (pending : List String) :
    (runCycle stOf pending).fetches = SERVICE_MAPPINGS.map Prod.snd := by
  unfold runCycle
  rw [runCycleAux_fetches]
  rfl

set_option maxRecDepth 10000 in
/-- Counterexample to C2 as stated: the target `(backend, auth-service)` is
reachable through the two aliases `"auth-service"` and `"auth"`, and one
monitor cycle fetches its status twice, not once. -/
theorem cycle_fetches_target_twice :
    ("auth-service", (⟨"backend", "auth-service"⟩ : ServiceConfig)) ∈
      SERVICE_MAPPINGS ∧
    ("auth", (⟨"backend", "auth-service"⟩ : ServiceConfig)) ∈ SERVICE_MAPPINGS ∧
    (runCycle allHealthy []).fetches.countP
      (fun c => c == ⟨"backend", "auth-service"⟩) = 2 := by
  decide

/-- A cluster in which every deployment reports one of two desired replicas
ready: `isReady` is false everywhere (the §8 scenario `2 desired / 1 ready`). -/
def allUnhealthy : ServiceConfig → Option DeploymentStatus :=
  fun cfg => some ⟨cfg.deployment, cfg.ns, 2, 1, 1, 1, false⟩

/-- In an association list with pairwise-distinct keys, a key determines its
value. -/
theorem key_functional {α β : Type} [DecidableEq α] (l : List (α × β))
    (h : (l.map Prod.fst).Nodup) {a : α} {b c : β}
    (h1 : (a, b) ∈ l) (h2 : (a, c) ∈ l) : b = c := by
  induction l with
  | nil => cases h1
  | cons x t ih =>
    have hx : x.1 ∉ t.map Prod.fst := (List.nodup_cons.mp (by simpa using h)).1
    have ht : (t.map Prod.fst).Nodup := (List.nodup_cons.mp (by simpa using h)).2
    rcases List.mem_cons.mp h1 with he1 | h1t
    · rcases List.mem_cons.mp h2 with he2 | h2t
      · rw [← he1] at he2; exact (Prod.mk.injEq a b a c).mp he2.symm |>.2
      · exfalso
        apply hx
        have : a = x.1 := by rw [← he1]
        rw [← this]
        exact List.mem_map_of_mem Prod.fst h2t
    · rcases List.mem_cons.mp h2 with he2 | h2t
      · exfalso
        apply hx
        have : a = x.1 := by rw [← he2]
        rw [← this]
        exact List.mem_map_of_mem Prod.fst h1t
      · exact ih ht h1t h2t

/-- C6: a target observed not healthy this cycle (its fetch succeeded but the
`status.isReady && status.readyReplicas > 0` test failed) receives no
notification of any kind this cycle, and any pending entry whose alias maps to
it is retained. -/
theorem unhealthy_target_silent_pending_retained
    (stOf : ServiceConfig → Option DeploymentStatus) (pending : List String)
    (t : ServiceConfig) (st : DeploymentStatus) (hst : stOf t = some st)
    (hun : (st.isReady && decide (0 < st.readyReplicas)) = false)
    (sn : String) (hmem : (sn, t) ∈ SERVICE_MAPPINGS) (hp : sn ∈ pending) :
    countTarget t (runCycle stOf pending).notifications = 0 ∧
    sn ∈ (runCycle stOf pending).pending := by
  have hh : healthyB stOf t = false := by
    unfold healthyB
    rw [hst]
    exact hun
  constructor
  · unfold runCycle
    rw [runCycleAux_countTarget_unhealthy stOf t hh]
    rfl
  · unfold runCycle
    refine (runCycleAux_mem_pending_unhealthy_key stOf sn SERVICE_MAPPINGS
      ⟨[], [], pending⟩ ?_).mpr hp
    intro cfg hc
    have hcfg : cfg = t :=
      key_functional SERVICE_MAPPINGS mappings_keys_nodup hc hmem
    rw [hcfg]
    exact hh

/-- Witness for C6: with every deployment at `1/2` ready and the alias
`"auth-service"` pending, the cycle emits nothing for `(backend, auth-service)`
and keeps the pending entry. -/
theorem unhealthy_target_silent_pending_retained_witness :
    countTarget ⟨"backend", "auth-service"⟩
      (runCycle allUnhealthy ["auth-service"]).notifications = 0 ∧
    "auth-service" ∈ (runCycle allUnhealthy ["auth-service"]).pending :=
  unhealthy_target_silent_pending_retained allUnhealthy ["auth-service"]
    ⟨"backend", "auth-service"⟩ ⟨"auth-service", "backend", 2, 1, 1, 1, false⟩
    (by decide) (by decide) "auth-service" (by decide) (by decide)

/-- The `repository` object of a Docker Hub webhook body; `repo_name` may be
absent. -/
structure DockerRepo where
  repo_name : Option String
deriving DecidableEq, Repr

/-- The `push_data` object of a Docker Hub webhook body; `tag` may be
absent. -/
structure PushData where
  tag : Option String
deriving DecidableEq, Repr

/-- The arguments of a call to
`updateDeployment(namespace, deployment, image, tag)`. -/
structure UpdateCall where
  ns : String
  deployment : String
  image : String
  tag : String
deriving DecidableEq, Repr

/-- Observable outcome of one `POST /webhook/dockerhub` request: HTTP status,
JSON `message`/`error` text, the `updateDeployment` call issued (if any), and
the `updatedServices` set after the request. -/
structure DockerhubOutcome where
  status : Nat
  message : String
  updateCall : Option UpdateCall
  pending : List String
deriving DecidableEq, Repr

/-- `updatedServices.set(serviceKey, true)`: the pending set gains the key
(idempotently — a `Map` keyed by string). -/
def insertPending (pending : List String) (key : String) : List String :=
  if key ∈ pending then pending else pending ++ [key]

/-- The `POST /webhook/dockerhub` handler of `src/server.js`.

`repository` / `pushData` being `none` models the top-level key missing (the
JS falsiness test `!repository || !push_data` → 400).  When `repo_name` is
absent, `imageName` is `undefined` and the callback `imageName.includes(key)`
throws a `TypeError`, which the outer `catch` turns into
`500 {error: "Internal server error"}` before any update or insertion happens.
`updateOk` models whether the awaited `updateDeployment` promise resolves; on
resolution the service key is marked pending and on rejection the inner
`catch` answers `500 {error: "Failed to update deployment"}`.  The update is
always issued with the literal tag `'latest'`; the pushed `tag` is only
logged. -/
def handleDockerhub (repository : Option DockerRepo) (pushData : Option PushData)
    (updateOk : Bool) (pending : List String) : DockerhubOutcome :=
  match repository, pushData with
  | none, _ => ⟨400, "Invalid webhook format", none, pending⟩
  | some _, none => ⟨400, "Invalid webhook format", none, pending⟩
  | some repo, some _ =>
    match repo.repo_name with
    | none => ⟨500, "Internal server error", none, pending⟩
    | some imageName =>
      match resolve imageName with
      | none => ⟨200, "No service mapping found", none, pending⟩
      | some e =>
        if updateOk then
          ⟨200, "Webhook processed successfully",
            some ⟨e.2.ns, e.2.deployment, imageName, "latest"⟩,
            insertPending pending e.1⟩
        else
          ⟨500, "Failed to update deployment",
            some ⟨e.2.ns, e.2.deployment, imageName, "latest"⟩,
            pending⟩

/-- C4: the Docker Hub handler's response mapping — missing `repository` or
`push_data` gives `400` with an error; an image name matching no alias gives
`200 "No service mapping found"`; a matched image whose update succeeds gives
`200 "Webhook processed successfully"`; a matched image whose update fails
gives `500` with an error. -/
theorem dockerhub_status_mapping (repository : Option DockerRepo)
    (pushData : Option PushData) (updateOk : Bool) (pending : List String) :
    ((repository = none ∨ pushData = none) →
      (handleDockerhub repository pushData updateOk pending).status = 400 ∧
      (handleDockerhub repository pushData updateOk pending).message =
        "Invalid webhook format") ∧
    (∀ repo pd img, repository = some repo → pushData = some pd →
      repo.repo_name = some img → resolve img = none →
      (handleDockerhub repository pushData updateOk pending).status = 200 ∧
      (handleDockerhub repository pushData updateOk pending).message =
        "No service mapping found") ∧
    (∀ repo pd img e, repository = some repo → pushData = some pd →
      repo.repo_name = some img → resolve img = some e → updateOk = true →
      (handleDockerhub repository pushData updateOk pending).status = 200 ∧
      (handleDockerhub repository pushData updateOk pending).message =
        "Webhook processed successfully") ∧
    (∀ repo pd img e, repository = some repo → pushData = some pd →
      repo.repo_name = some img → resolve img = some e → updateOk = false →
      (handleDockerhub repository pushData updateOk pending).status = 500 ∧
      (handleDockerhub repository pushData updateOk pending).message =
        "Failed to update deployment") := by
  refine ⟨?_, ?_, ?_, ?_⟩
  · rintro (rfl | rfl)
    · exact ⟨rfl, rfl⟩
    · cases repository with
      | none => exact ⟨rfl, rfl⟩
      | some r => exact ⟨rfl, rfl⟩
  · rintro repo pd img rfl rfl hname hres
    simp [handleDockerhub, hname, hres]
  · rintro repo pd img e rfl rfl hname hres rfl
    simp [handleDockerhub, hname, hres]
  · rintro repo pd img e rfl rfl hname hres rfl
    simp [handleDockerhub, hname, hres]

/-- Witness for C4: the four response shapes at concrete request bodies. -/
theorem dockerhub_status_mapping_witness :
    ((handleDockerhub none (some ⟨some "v1"⟩) true []).status = 400 ∧
      (handleDockerhub none (some ⟨some "v1"⟩) true []).message =
        "Invalid webhook format") ∧
    ((handleDockerhub (some ⟨some "zzz"⟩) (some ⟨some "v1"⟩) true []).status =
        200 ∧
      (handleDockerhub (some ⟨some "zzz"⟩) (some ⟨some "v1"⟩) true []).message =
        "No service mapping found") ∧
    ((handleDockerhub (some ⟨some "jessy/auth"⟩) (some ⟨some "v1"⟩) true
        []).status = 200 ∧
      (handleDockerhub (some ⟨some "jessy/auth"⟩) (some ⟨some "v1"⟩) true
        []).message = "Webhook processed successfully") ∧
    ((handleDockerhub (some ⟨some "jessy/auth"⟩) (some ⟨some "v1"⟩) false
        []).status = 500 ∧
      (handleDockerhub (some ⟨some "jessy/auth"⟩) (some ⟨some "v1"⟩) false
        []).message = "Failed to update deployment") :=
  ⟨(dockerhub_status_mapping none (some ⟨some "v1"⟩) true []).1 (Or.inl rfl),
    (dockerhub_status_mapping (some ⟨some "zzz"⟩) (some ⟨some "v1"⟩) true
      []).2.1 ⟨some "zzz"⟩ ⟨some "v1"⟩ "zzz" rfl rfl rfl (by decide),
    (dockerhub_status_mapping (some ⟨some "jessy/auth"⟩) (some ⟨some "v1"⟩)
      true []).2.2.1 ⟨some "jessy/auth"⟩ ⟨some "v1"⟩ "jessy/auth"
      ("auth", ⟨"backend", "auth-service"⟩) rfl rfl rfl (by decide) rfl,
    (dockerhub_status_mapping (some ⟨some "jessy/auth"⟩) (some ⟨some "v1"⟩)
      false []).2.2.2 ⟨some "jessy/auth"⟩ ⟨some "v1"⟩ "jessy/auth"
      ("auth", ⟨"backend", "auth-service"⟩) rfl rfl rfl (by decide) rfl⟩

/-- C9: whenever a registry-push webhook resolves to a target, the deployment
update is issued with the literal tag `"latest"`, whatever tag the push
carried. -/
theorem dockerhub_update_tag_always_latest (repo : DockerRepo) (pd : PushData)
    (updateOk : Bool) (pending : List String) (img : String)
    (e : String × ServiceConfig) (hname : repo.repo_name = some img)
    (hres : resolve img = some e) :
    (handleDockerhub (some repo) (some pd) updateOk pending).updateCall =
      some ⟨e.2.ns, e.2.deployment, img, "latest"⟩ := by
  cases updateOk with
  | false => simp [handleDockerhub, hname, hres]
  | true => simp [handleDockerhub, hname, hres]

/-- Witness for C9: a push of `jessy/auth` carrying tag `"v2"` still issues the
update with tag `"latest"`. -/
theorem dockerhub_update_tag_always_latest_witness :
    (handleDockerhub (some ⟨some "jessy/auth"⟩) (some ⟨some "v2"⟩) true
      []).updateCall = some ⟨"backend", "auth-service", "jessy/auth", "latest"⟩ :=
  dockerhub_update_tag_always_latest ⟨some "jessy/auth"⟩ ⟨some "v2"⟩ true []
    "jessy/auth" ("auth", ⟨"backend", "auth-service"⟩) rfl (by decide)

/-- C10: a body with both `repository` and `push_data` but no
`repository.repo_name` is answered `500 {error: "Internal server error"}`
(the `undefined` image name makes the substring-match callback throw, caught
by the outer handler), with no update issued and the pending set unchanged. -/
theorem dockerhub_missing_repo_name_internal_error (repo : DockerRepo)
    (pd : PushData) (updateOk : Bool) (pending : List String)
    (hname : repo.repo_name = none) :
    handleDockerhub (some repo) (some pd) updateOk pending =
      ⟨500, "Internal server error", none, pending⟩ := by
  cases repo with
  | mk rn => cases hname; rfl

/-- Witness for C10 at a concrete body `{repository: {}, push_data: {tag}}`. -/
theorem dockerhub_missing_repo_name_internal_error_witness :
    handleDockerhub (some ⟨none⟩) (some ⟨some "v1"⟩) true ["auth"] =
      ⟨500, "Internal server error", none, ["auth"]⟩ :=
  dockerhub_missing_repo_name_internal_error ⟨none⟩ ⟨some "v1"⟩ true ["auth"] rfl

/-- One entry of `spec.template.spec.containers` of a deployment, restricted to
the fields `updateDeployment` reads or writes. -/
structure Container where
  name : String
  image : String
deriving DecidableEq, Repr

/-- The container-rewriting loop of `updateDeployment`, carrying the index `i`
of the current container: JS
`container.name === deployment || containers.indexOf(container) === 0`
replaces the image of every container named `deployment` and, in every case,
of the container at index 0.  (`indexOf` is reference equality; distinct
parsed-JSON container objects are distinct references, so it is the positional
index.) -/
def updateContainersFrom (deployment fullImageName : String) (i : Nat) :
    List Container → List Container
  | [] => []
  | c :: rest =>
    (if c.name = deployment ∨ i = 0 then { c with image := fullImageName }
      else c) :: updateContainersFrom deployment fullImageName (i + 1) rest

/-- The full container-list rewrite performed by `updateDeployment` before the
patch is submitted. -/
def updateContainers (deployment fullImageName : String)
    (cs : List Container) : List Container :=
  updateContainersFrom deployment fullImageName 0 cs

/-- The strategic-merge-patch body submitted by `updateDeployment`: in the
source it is the nesting `{spec: {template: {spec: {containers}}}}` whose only
leaf is the container list, so it is modelled by its single field. -/
structure StrategicMergePatch where
  containers : List Container
deriving DecidableEq, Repr

/-- The patch `updateDeployment` submits for a deployment whose current pod
template holds `cs`. -/
def buildPatch (deployment fullImageName : String)
    (cs : List Container) : StrategicMergePatch :=
  ⟨updateContainers deployment fullImageName cs⟩

/-- Index characterization of the rewriting loop, for an arbitrary starting
index. -/
theorem updateContainersFrom_getElem (deployment fullImageName : String) :
    ∀ (cs : List Container) (j i : Nat),
      (updateContainersFrom deployment fullImageName j cs)[i]? =
        cs[i]?.map (fun c =>
          if c.name = deployment ∨ j + i = 0 then
            { c with image := fullImageName } else c) := by
  intro cs
  induction cs with
  | nil => intro j i; rfl
  | cons c rest ih =>
    intro j i
    cases i with
    | zero => simp [updateContainersFrom]
    | succ i' =>
      rw [show (updateContainersFrom deployment fullImageName j (c :: rest)) =
        (if c.name = deployment ∨ j = 0 then { c with image := fullImageName }
          else c) :: updateContainersFrom deployment fullImageName (j + 1) rest
        from rfl]
      rw [List.getElem?_cons_succ, List.getElem?_cons_succ, ih (j + 1) i']
      have harith : j + 1 + i' = j + (i' + 1) := by omega
      rw [harith]

/-- C5 (amended): the submitted patch contains only the container list, and the
container at each index `i` has its image replaced exactly when its name
equals the workload name or `i = 0` — the first container is always rewritten,
in addition to (not only as a fallback for) any name-matching container; all
other containers and all fields other than `image` are unchanged. -/
theorem updateDeployment_patch_characterization
    (deployment fullImageName : String) (cs : List Container) :
    (∀ i : Nat, (updateContainers deployment fullImageName cs)[i]? =
      cs[i]?.map (fun c =>
        if c.name = deployment ∨ i = 0 then { c with image := fullImageName }
        else c)) ∧
    (buildPatch deployment fullImageName cs).containers =
      updateContainers deployment fullImageName cs := by
  refine ⟨?_, rfl⟩
  intro i
  have h := updateContainersFrom_getElem deployment fullImageName cs 0 i
  rw [updateContainers, h]
  simp

/-- Counterexample to C5 as stated: a deployment `auth-service` whose pod
template lists a sidecar first and the name-matching container second.  The
claim predicts only the name-matching container's image changes; the code also
rewrites the sidecar at index 0. -/
theorem sidecar_image_also_replaced :
    updateContainers "auth-service" "jessy/auth:latest"
        [⟨"sidecar", "old-sidecar"⟩, ⟨"auth-service", "old-auth"⟩] =
      [⟨"sidecar", "jessy/auth:latest"⟩, ⟨"auth-service", "jessy/auth:latest"⟩] ∧
    updateContainers "auth-service" "jessy/auth:latest"
        [⟨"sidecar", "old-sidecar"⟩, ⟨"auth-service", "old-auth"⟩] ≠
      [⟨"sidecar", "old-sidecar"⟩, ⟨"auth-service", "jessy/auth:latest"⟩] := by
  decide

/-- The `workflow_run` object of a GitHub webhook body, restricted to the
fields the handler reads; each may be absent. -/
structure WorkflowRun where
  name : Option String
  conclusion : Option String
  head_branch : Option String
deriving DecidableEq, Repr

/-- The `repository` object of a GitHub webhook body. -/
structure GithubRepo where
  name : Option String
deriving DecidableEq, Repr

/-- A `POST /webhook/github` request body, restricted to the fields the
handler reads. -/
structure GithubBody where
  action : Option String
  workflow_run : Option WorkflowRun
  repository : Option GithubRepo
  ref : Option String
deriving DecidableEq, Repr

/-- Models the JS default `s || d` on a string: both an absent value and the
empty string (the only falsy string) fall back to the default. -/
def jsOrString (o : Option String) (d : String) : String :=
  match o with
  | none => d
  | some s => if s = "" then d else s

/-- Models interpolation of a possibly-undefined value into a JS template
literal: `undefined` prints as `"undefined"`. -/
def jsTemplate (o : Option String) : String :=
  o.getD "undefined"

/-- Removes the first occurrence of `pat` from `s`, as JS
`s.replace(pat, "")` does for a string pattern (no change when `pat` does not
occur). -/
def removeFirst (pat : List Char) : List Char → List Char
  | [] => []
  | c :: rest =>
    if pat.isPrefixOf (c :: rest) then (c :: rest).drop pat.length
    else c :: removeFirst pat rest

/-- Models `ref.replace('refs/heads/', '')`. -/
def stripRefsHeads (s : String) : String :=
  ⟨removeFirst "refs/heads/".data s.data⟩

/-- The Telegram notification dispatched by the GitHub handler, recorded by
branch and interpolated fields. -/
inductive GhNotif where
  | completedSuccess (repoName branch conclusion : String)
  | completedFailure (repoName branch conclusion : String)
  | started (repoName branch workflowName : String)
  | inProgress (repoName branch workflowName : String)
  | pushEvent (repoName branch action : String)
deriving DecidableEq, Repr

/-- The `POST /webhook/github` handler of `src/server.js`: an if-chain keyed on
`action` (with `workflow_run` required for the three workflow variants, and
`completed` further branching on `conclusion === 'success'`), each branch
dispatching one fire-and-forget notification, and the unmatched case only
logging; every branch falls through to the same
`200 {message: "GitHub webhook processed successfully"}` response. -/
def handleGithub (b : GithubBody) : Nat × String × Option GhNotif :=
  let repoName := jsOrString (b.repository.bind GithubRepo.name) "unknown"
  let notif :=
    match b.action, b.workflow_run with
    | some "completed", some wr =>
      if wr.conclusion = some "success" then
        some (GhNotif.completedSuccess repoName (jsTemplate wr.head_branch)
          (jsTemplate wr.conclusion))
      else
        some (GhNotif.completedFailure repoName (jsTemplate wr.head_branch)
          (jsTemplate wr.conclusion))
    | some "requested", some wr =>
      some (GhNotif.started repoName (jsTemplate wr.head_branch)
        (jsTemplate wr.name))
    | some "in_progress", some wr =>
      some (GhNotif.inProgress repoName (jsTemplate wr.head_branch)
        (jsTemplate wr.name))
    | some "opened", _ =>
      some (GhNotif.pushEvent repoName
        (jsOrString (b.ref.map stripRefsHeads) "unknown") "opened")
    | some "synchronize", _ =>
      some (GhNotif.pushEvent repoName
        (jsOrString (b.ref.map stripRefsHeads) "unknown") "synchronize")
    | _, _ => none
  (200, "GitHub webhook processed successfully", notif)

/-- C7: whatever the `action` value and whether `workflow_run`, `repository`
or `ref` are present, and whichever notification branch runs, the GitHub
handler responds `200 {message: "GitHub webhook processed successfully"}` —
it never signals failure to the HTTP caller. -/
theorem github_handler_always_ok (b : GithubBody) :
    (handleGithub b).1 = 200 ∧
    (handleGithub b).2.1 = "GitHub webhook processed successfully" :=
  ⟨rfl, rfl⟩
